import Mathlib

/-!
Shallow embedding of `src/src/database.rs` (crate module `database`): the
account store and the operations `Account::new`, `create_account`, `deposit`,
`withdraw`, `transfer`, `delete_account`, `show_balance`, `fetch_account`.

Modelling conventions:
* The SQLite table `account` is a list of rows in insertion order (`Store`).
  SQLite `INTEGER` columns are modelled as unbounded `Int` (no claim depends
  on 64-bit overflow); `id` as `Nat`; `TEXT` as `String`.
* Fallible rusqlite calls return an explicit error value.  The errors the
  code can produce are `QueryReturnedNoRows` (no row) and the column
  conversion failure raised when `row.get::<usize>` meets a negative
  `INTEGER` (modelled as `invalidColumnType`).
* A Rust panic (`expect`) is a distinct outcome constructor, not an error
  value, since it is not returned to the caller.
* Interpolated lookups (`... where account_number='{}'`) are modelled as
  exact first-row key match, which agrees with SQLite for quote-free keys;
  the literal query text the code builds is modelled separately
  (`deposit_query_string` etc.) for the injection claim.
* Randomness (`AccountNumber::default()` draws and the pin digits of
  `create_account`) is an injected stream / argument, per the spec's
  treatment of the randomness source as an injected capability.
-/

namespace Bank

/-- Errors of the rusqlite calls that the code in `database.rs` can actually
hit: `QueryReturnedNoRows` (used explicitly and raised by `query_row` on an
empty result) and the `FromSql` column-conversion failure raised when a
negative `INTEGER` is read into `usize`. -/
inductive RusqliteError where
  | queryReturnedNoRows
  | invalidColumnType
  deriving DecidableEq, Repr

/-- Result of running one Rust function: normal return `Ok`, an `Err` carried
to the caller, or a panic (from `.expect`), which is not a return value. -/
inductive Outcome (α : Type) where
  | ok (val : α)
  | err (e : RusqliteError)
  | panicked (msg : String)
  deriving DecidableEq, Repr

/-- A row of the `account` table (struct `Account` in `database.rs`); the
`balance` column is SQLite `INTEGER`, hence `Int` here — the Rust struct reads
it as `usize`, and that conversion is modelled at the read sites. -/
structure Account where
  id : Nat
  account_number : String
  balance : Int
  pin : String
  deriving DecidableEq, Repr

/-- The `account` table: rows in insertion order. -/
abbrev Store := List Account

/-- The `account_number` column of every row. -/
def keys (s : Store) : List String := s.map (·.account_number)

/-- No two rows share an `account_number`. -/
def keysNodup (s : Store) : Prop := (keys s).Nodup

instance (s : Store) : Decidable (keysNodup s) := by
  unfold keysNodup; infer_instance

/-- Balance of the first row keyed `n`, as stored (observer used to state
claims; not an operation of the code). -/
def balanceOf (s : Store) (n : String) : Option Int :=
  (s.find? (fun a => a.account_number == n)).map (·.balance)

/-- Sum of the `balance` column over all rows. -/
def totalBalance (s : Store) : Int := (s.map (·.balance)).sum

/-- Value of a decimal digit character. -/
def digitVal (c : Char) : Nat := c.toNat - 48

/-- Value of a digit list read most-significant first. -/
def digitsToNat (cs : List Char) : Nat := cs.foldl (fun acc c => 10 * acc + digitVal c) 0

/-- SQLite's text-to-numeric coercion, restricted to integer prefixes: when a
`TEXT` value meets the arithmetic `balance + ?1`, SQLite parses the longest
numeric prefix (optional sign, then digits) and treats the rest as 0.  The
fractional/exponent forms of the coercion are not needed by any claim. -/
def sqliteTextToInt (t : String) : Int :=
  match t.data with
  | '-' :: rest => -(digitsToNat (rest.takeWhile (·.isDigit)) : Int)
  | '+' :: rest => (digitsToNat (rest.takeWhile (·.isDigit)) : Int)
  | cs => (digitsToNat (cs.takeWhile (·.isDigit)) : Int)

/-- Rust's `str::parse` for an unsigned 64-bit type (`usize`/`u64` on the
64-bit targets the crate builds for): an optional `+`, then one or more
digits, value below `2 ^ 64`; anything else is a parse error. -/
def parseRustUnsigned (t : String) : Option Nat :=
  let cs := match t.data with
    | '+' :: rest => rest
    | cs => cs
  if cs = [] then none
  else if cs.all (·.isDigit) then
    let v := digitsToNat cs
    if v < 2 ^ 64 then some v else none
  else none

/-- The `SELECT pin FROM account where account_number='…'` lookup of
`deposit`/`withdraw`/`delete_account` (interpolated; modelled as exact
first-row key match): pin of the first row keyed `acct`. -/
def fetchPin (s : Store) (acct : String) : Option String :=
  (s.find? (fun a => a.account_number == acct)).map (·.pin)

/-- The `SELECT balance … query_row(… row.get::<usize>)` read used by
`deposit`, `withdraw` and `show_balance`: no row is `QueryReturnedNoRows`;
a negative stored balance fails the `usize` conversion. -/
def fetchBalance (s : Store) (acct : String) : Except RusqliteError Nat :=
  match s.find? (fun a => a.account_number == acct) with
  | none => .error .queryReturnedNoRows
  | some a => if 0 ≤ a.balance then .ok a.balance.toNat else .error .invalidColumnType

/-- The parameterized statement
`UPDATE account SET balance = balance + ?1 WHERE account_number=?2`
(and its `-` twin, via a negative `delta`): adds `delta` to every row keyed
`acct`. -/
def updateBalanceAdd (s : Store) (acct : String) (delta : Int) : Store :=
  s.map (fun a => if a.account_number == acct then { a with balance := a.balance + delta } else a)

/-- `fetch_account` (lines 284–302): selects every row, converts each —
dropping (via `.flatten()`) any row whose `balance` fails the `usize`
conversion, i.e. is negative — and takes the first remaining row whose
`account_number` equals the argument exactly; else `QueryReturnedNoRows`
(returned as `none` here; `transfer` re-wraps it). -/
def fetch_account (s : Store) (account : String) : Option Account :=
  (s.filter (fun a => 0 ≤ a.balance)).find? (fun a => a.account_number == account)

/-- `deposit` (lines 111–143): fetch the pin (error propagates); on a wrong
pin print to stderr and return `Ok(())`; otherwise run the `UPDATE` with the
raw amount string (SQLite coerces it) and read the balance back (that read's
error propagates after the update has been applied). -/
def deposit (amount pin account_number : String) (s : Store) : Outcome Unit × Store :=
  match fetchPin s account_number with
  | none => (.err .queryReturnedNoRows, s)
  | some pin_from_db =>
    if pin_from_db == pin then
      match fetchBalance (updateBalanceAdd s account_number (sqliteTextToInt amount))
          account_number with
      | .ok _ => (.ok (), updateBalanceAdd s account_number (sqliteTextToInt amount))
      | .error e => (.err e, updateBalanceAdd s account_number (sqliteTextToInt amount))
    else
      (.ok (), s)

/-- `withdraw` (lines 190–244): fetch the pin; wrong pin prints and returns
`Ok(())`; read the balance; `parse::<usize>().expect(…)` panics on an
unparsable amount; an amount above the balance prints and returns `Ok(())`;
otherwise run the `UPDATE … balance - ?1` and read the balance back. -/
def withdraw (amount pin account_number : String) (s : Store) : Outcome Unit × Store :=
  match fetchPin s account_number with
  | none => (.err .queryReturnedNoRows, s)
  | some pin_from_db =>
    if pin_from_db == pin then
      match fetchBalance s account_number with
      | .error e => (.err e, s)
      | .ok amount_from_db =>
        match parseRustUnsigned amount with
        | none => (.panicked "Not able to parse string to usize", s)
        | some amt =>
          if amount_from_db < amt then
            (.ok (), s)
          else
            match fetchBalance (updateBalanceAdd s account_number (-(amt : Int)))
                account_number with
            | .ok _ => (.ok (), updateBalanceAdd s account_number (-(amt : Int)))
            | .error e => (.err e, updateBalanceAdd s account_number (-(amt : Int)))
    else
      (.ok (), s)

/-- The tail of `transfer` (lines 184–187): re-fetch origin and target after
the two updates and return them; a failing re-fetch propagates
`QueryReturnedNoRows`. -/
def transferRefetch (s2 : Store) (origin_number target_number : String) :
    Outcome (Account × Account) × Store :=
  match fetch_account s2 origin_number with
  | none => (.err .queryReturnedNoRows, s2)
  | some o2 =>
    match fetch_account s2 target_number with
    | none => (.err .queryReturnedNoRows, s2)
    | some t2 => (.ok (o2, t2), s2)

/-- `transfer` (lines 145–188): reject self-transfer; fetch both accounts
(`QueryReturnedNoRows` if either is missing); wrong origin pin, a
non-`u64`-parsable amount, and an amount above the origin balance each yield
`QueryReturnedNoRows`; otherwise credit the target and then debit the origin
as two separate `UPDATE` statements (no transaction), and re-fetch both. -/
def transfer (amount pin origin_account target_account : String) (s : Store) :
    Outcome (Account × Account) × Store :=
  if origin_account == target_account then (.err .queryReturnedNoRows, s)
  else
    match fetch_account s origin_account with
    | none => (.err .queryReturnedNoRows, s)
    | some origin =>
      match fetch_account s target_account with
      | none => (.err .queryReturnedNoRows, s)
      | some target =>
        if origin.pin == pin then
          match parseRustUnsigned amount with
          | none => (.err .queryReturnedNoRows, s)
          | some amt =>
            if origin.balance.toNat < amt then (.err .queryReturnedNoRows, s)
            else
              transferRefetch
                (updateBalanceAdd (updateBalanceAdd s target.account_number (amt : Int))
                  origin.account_number (-(amt : Int)))
                origin.account_number target.account_number
        else (.err .queryReturnedNoRows, s)

/-- `delete_account` (lines 246–266): fetch the pin; wrong pin prints and
returns `Ok(())`; otherwise `DELETE FROM account WHERE account_number=?1`
(parameterized) removes every row keyed by the argument. -/
def delete_account (account_number pin : String) (s : Store) : Outcome Unit × Store :=
  match fetchPin s account_number with
  | none => (.err .queryReturnedNoRows, s)
  | some pin_from_db =>
    if pin_from_db == pin then
      (.ok (), s.filter (fun a => a.account_number != account_number))
    else
      (.ok (), s)

/-- `show_balance` (lines 268–282): read the balance (interpolated lookup)
and print it; the store is never changed. -/
def show_balance (account_number : String) (s : Store) : Outcome Unit × Store :=
  match fetchBalance s account_number with
  | .ok _ => (.ok (), s)
  | .error e => (.err e, s)

/-- `COALESCE(MAX(id), 0) + 1` of `create_account` (lines 75–79). -/
def next_max_id (s : Store) : Nat := (s.map (·.id)).foldr max 0 + 1

/-- `create_account` (lines 71–109): build the row with id
`COALESCE(MAX(id),0)+1`, the given number, the given balance and a
randomly drawn six-digit pin (the pin is the injected `pin` argument here),
and `INSERT` it. -/
def create_account (data : String) (balance : Nat) (pin : String) (s : Store) :
    Account × Store :=
  let new_account : Account := ⟨next_max_id s, data, (balance : Int), pin⟩
  (new_account, s ++ [new_account])

/-- The `loop` of `Account::new` (lines 26–38), started at draw index `i`
with `fuel` iterations allowed: check the existence query on the current
candidate; on a hit draw again, otherwise leave the loop with the candidate.
The Rust loop has no iteration bound; `fuel` is the standard fuel encoding of
that unbounded loop — the loop terminates iff some `fuel` yields `some`. -/
def accountNewLoopFrom (existsChk : String → Bool) (candidates : Nat → String) :
    Nat → Nat → Option String
  | _, 0 => none
  | i, fuel + 1 =>
    if existsChk (candidates i) then accountNewLoopFrom existsChk candidates (i + 1) fuel
    else some (candidates i)

/-- The `loop` of `Account::new` from its first draw. -/
def accountNewLoop (existsChk : String → Bool) (candidates : Nat → String) (fuel : Nat) :
    Option String :=
  accountNewLoopFrom existsChk candidates 0 fuel

/-- The `loop` of `Account::new` terminates for this existence check and this
candidate stream: some finite fuel suffices. -/
def accountNewTerminates (existsChk : String → Bool) (candidates : Nat → String) : Prop :=
  ∃ fuel, (accountNewLoop existsChk candidates fuel).isSome

/-- The `SELECT 1 FROM account where account_number='…'` existence probe of
`Account::new` (lines 27–37): some row is keyed by the candidate. -/
def account_exists (s : Store) (n : String) : Bool :=
  s.any (fun a => a.account_number == n)

/-- `Account::new` (lines 21–43): run the collision loop against the store's
existence probe (`candidates` is the stream of `AccountNumber::default()`
draws, `fuel` the fuel of the unbounded loop), then `create_account` with
balance 0 and the injected `pin`. -/
def Account.new (candidates : Nat → String) (pin : String) (fuel : Nat) (s : Store) :
    Option (Account × Store) :=
  (accountNewLoop (account_exists s) candidates fuel).map
    (fun n => create_account n 0 pin s)

/-- The query text `deposit` builds at lines 113–116 (`withdraw` and
`delete_account` build the identical text): the caller-supplied
`account_number` is interpolated directly into the SQL string. -/
def deposit_query_string (account_number : String) : String :=
  "SELECT pin FROM account where account_number='" ++ account_number ++ "';"

/-- The query text `show_balance` builds at lines 270–273. -/
def show_balance_query_string (account_number : String) : String :=
  "SELECT balance FROM account where account_number='" ++ account_number ++ "';"

/-- The two `UPDATE` statements of `transfer`'s success path, in source order
(lines 170–178): first credit the target, then debit the origin.  They are
issued as two independent `db.execute` calls with no enclosing transaction. -/
def transferWrites (origin_number target_number : String) (amt : Nat) :
    List (Store → Store) :=
  [fun s => updateBalanceAdd s target_number (amt : Int),
   fun s => updateBalanceAdd s origin_number (-(amt : Int))]

/-- Run a prefix of a write sequence: the store an execution interrupted
after those writes leaves behind. -/
def applyWrites (ws : List (Store → Store)) (s : Store) : Store :=
  ws.foldl (fun s w => w s) s

/-- One call of the mutating balance API, for stating properties of call
sequences. -/
inductive LedgerCall where
  | dep (amount pin acct : String)
  | wdr (amount pin acct : String)
  | xfer (amount pin origin target : String)
  deriving DecidableEq, Repr

/-- The store a call leaves behind (the returned value is dropped). -/
def runCall (c : LedgerCall) (s : Store) : Store :=
  match c with
  | .dep a p n => (deposit a p n s).2
  | .wdr a p n => (withdraw a p n s).2
  | .xfer a p o t => (transfer a p o t s).2

/-- Run a sequence of mutating calls left to right. -/
def runCalls (cs : List LedgerCall) (s : Store) : Store :=
  cs.foldl (fun s c => runCall c s) s

/-- The amount of a deposit call coerces to a non-negative integer (vacuous
for the other calls). -/
def depositNonneg (c : LedgerCall) : Prop :=
  match c with
  | .dep a _ _ => 0 ≤ sqliteTextToInt a
  | _ => True

instance (c : LedgerCall) : Decidable (depositNonneg c) := by
  unfold depositNonneg; cases c <;> infer_instance

/-- Example store used by concrete witnesses: two accounts with distinct
numbers and pins. -/
def exStore : Store :=
  [⟨1, "111", 100, "111111"⟩, ⟨2, "222", 5, "222222"⟩]

end Bank

namespace Bank

theorem updateBalanceAdd_key (a : Account) (k : String) (d : Int) :
    ((if a.account_number == k then { a with balance := a.balance + d } else a) :
      Account).account_number = a.account_number := by
  split <;> rfl

theorem keys_updateBalanceAdd (s : Store) (k : String) (d : Int) :
    keys (updateBalanceAdd s k d) = keys s := by
  unfold keys updateBalanceAdd
  rw [List.map_map]
  exact List.map_congr_left (fun a _ => updateBalanceAdd_key a k d)

theorem find?_updateBalanceAdd (s : Store) (k n : String) (d : Int) :
    (updateBalanceAdd s k d).find? (fun a => a.account_number == n) =
      (s.find? (fun a => a.account_number == n)).map
        (fun a => if a.account_number == k then { a with balance := a.balance + d } else a) := by
  unfold updateBalanceAdd
  rw [List.find?_map]
  have hpf : ((fun a : Account => a.account_number == n) ∘ fun a : Account =>
      if a.account_number == k then { a with balance := a.balance + d } else a) =
      (fun a : Account => a.account_number == n) := by
    funext a
    simp only [Function.comp]
    rw [updateBalanceAdd_key]
  rw [hpf]

theorem mem_key_unique {s : Store} (h : keysNodup s) {a b : Account}
    (ha : a ∈ s) (hb : b ∈ s) (hk : a.account_number = b.account_number) : a = b :=
  List.inj_on_of_nodup_map h ha hb hk

theorem find?_key_eq {s : Store} (h : (s.map (·.account_number)).Nodup) {a : Account}
    {n : String} (ha : a ∈ s) (hk : a.account_number = n) :
    s.find? (fun x => x.account_number == n) = some a := by
  induction s with
  | nil => cases ha
  | cons b t ih =>
    rw [List.map_cons, List.nodup_cons] at h
    rw [List.find?_cons]
    by_cases hb : b.account_number = n
    · simp only [hb, beq_self_eq_true]
      cases List.mem_cons.mp ha with
      | inl h1 => rw [h1]
      | inr h2 =>
        exact absurd (hb ▸ hk ▸ List.mem_map_of_mem (·.account_number) h2) h.1
    · have hbf : (b.account_number == n) = false := by
        simpa using hb
      simp only [hbf]
      cases List.mem_cons.mp ha with
      | inl h1 => exact absurd (h1 ▸ hk) hb
      | inr h2 => exact ih h.2 h2

theorem fetch_account_mem {s : Store} {n : String} {a : Account}
    (h : fetch_account s n = some a) :
    a ∈ s ∧ a.account_number = n ∧ 0 ≤ a.balance := by
  unfold fetch_account at h
  have hm := List.mem_of_find?_eq_some h
  have hp := List.find?_some h
  rw [List.mem_filter] at hm
  exact ⟨hm.1, by simpa using hp, by simpa using hm.2⟩

theorem fetch_account_of_mem {s : Store} (hnd : keysNodup s) {a : Account} {n : String}
    (ha : a ∈ s) (hk : a.account_number = n) (hb : 0 ≤ a.balance) :
    fetch_account s n = some a := by
  unfold fetch_account
  have hsub : ((s.filter (fun a => 0 ≤ a.balance)).map (·.account_number)).Nodup :=
    List.Nodup.sublist ((List.filter_sublist s).map (·.account_number)) hnd
  exact find?_key_eq hsub (List.mem_filter.mpr ⟨ha, by simpa using hb⟩) hk

theorem fetchBalance_ok_iff {s : Store} {n : String} {b : Nat} :
    fetchBalance s n = .ok b ↔
      ∃ a, s.find? (fun x => x.account_number == n) = some a ∧ a.balance = (b : Int) := by
  unfold fetchBalance
  cases h : s.find? (fun x => x.account_number == n) with
  | none => simp
  | some a =>
    simp only []
    by_cases hb : 0 ≤ a.balance
    · rw [if_pos hb]
      constructor
      · intro hok
        refine ⟨a, rfl, ?_⟩
        have : a.balance.toNat = b := by simpa using hok
        omega
      · rintro ⟨a2, ha2, hbal⟩
        injection ha2 with ha2
        subst ha2
        have hb2 : a.balance.toNat = b := by omega
        simp [hb2]
    · rw [if_neg hb]
      constructor
      · intro hok; cases hok
      · rintro ⟨a2, ha2, hbal⟩
        injection ha2 with ha2
        subst ha2
        omega

theorem totalBalance_updateBalanceAdd (s : Store) (k : String) (d : Int) :
    totalBalance (updateBalanceAdd s k d) =
      totalBalance s + d * (s.countP (fun a => a.account_number == k) : Int) := by
  induction s with
  | nil => simp [totalBalance, updateBalanceAdd]
  | cons a t ih =>
    simp only [totalBalance, updateBalanceAdd, List.map_cons, List.sum_cons,
      List.countP_cons] at *
    by_cases h : (a.account_number == k) = true
    · simp only [h, if_true, if_pos h]
      rw [ih]
      push_cast
      ring
    · simp only [h, if_false, if_neg h]
      rw [ih]
      push_cast
      ring

theorem countP_key_eq_one {s : Store} (hnd : keysNodup s) {a : Account} {k : String}
    (ha : a ∈ s) (hk : a.account_number = k) :
    s.countP (fun x => x.account_number == k) = 1 := by
  have hmem : k ∈ keys s := hk ▸ List.mem_map_of_mem (·.account_number) ha
  have h1 : List.count k (keys s) = 1 := List.count_eq_one_of_mem hnd hmem
  rw [List.count_eq_countP, keys, List.countP_map] at h1
  simpa [Function.comp] using h1

theorem nonneg_updateAdd {s : Store} {k : String} {d : Int} (hd : 0 ≤ d)
    (h : ∀ a ∈ s, 0 ≤ a.balance) :
    ∀ r ∈ updateBalanceAdd s k d, 0 ≤ r.balance := by
  intro r hr
  rw [updateBalanceAdd, List.mem_map] at hr
  obtain ⟨a, ha, rfl⟩ := hr
  split
  · have := h a ha; simp only []; omega
  · exact h a ha

theorem nonneg_updateSub {s : Store} {k : String} {amt : Nat} (hnd : keysNodup s)
    (h : ∀ a ∈ s, 0 ≤ a.balance) {a0 : Account} (ha0 : a0 ∈ s)
    (hk : a0.account_number = k) (hge : (amt : Int) ≤ a0.balance) :
    ∀ r ∈ updateBalanceAdd s k (-(amt : Int)), 0 ≤ r.balance := by
  intro r hr
  rw [updateBalanceAdd, List.mem_map] at hr
  obtain ⟨a, ha, rfl⟩ := hr
  by_cases hak : (a.account_number == k) = true
  · have : a = a0 := mem_key_unique hnd ha ha0 (by simpa [hk] using hak)
    subst this
    rw [if_pos hak]
    simp only []
    omega
  · rw [if_neg hak]
    exact h a ha

theorem transferRefetch_fst_err {s2 : Store} {oN tN : String} {e : RusqliteError}
    (h : (transferRefetch s2 oN tN).1 = .err e) : e = .queryReturnedNoRows := by
  unfold transferRefetch at h
  repeat' split at h
  all_goals simp_all

theorem transferRefetch_snd (s2 : Store) (oN tN : String) :
    (transferRefetch s2 oN tN).2 = s2 := by
  unfold transferRefetch
  repeat' split
  all_goals rfl

theorem transferRefetch_ok {s2 : Store} {oN tN : String} {o2 t2 : Account}
    (ho : fetch_account s2 oN = some o2) (ht : fetch_account s2 tN = some t2) :
    transferRefetch s2 oN tN = (.ok (o2, t2), s2) := by
  unfold transferRefetch
  rw [ho, ht]

end Bank

namespace Bank

/-- C10: every error that `transfer` returns is the identical value,
`rusqlite::Error::QueryReturnedNoRows` — self-transfer, a missing origin or
target, a wrong pin, an unparsable or negative amount string, and
insufficient funds all produce it — so no failure cause is distinguishable
from another by inspecting the returned result. -/
theorem c10_transfer_errors_indistinguishable (amount pin o t : String) (s : Store)
    (e : RusqliteError) (h : (transfer amount pin o t s).1 = .err e) :
    e = .queryReturnedNoRows := by
  unfold transfer at h
  repeat' split at h
  all_goals first
    | exact transferRefetch_fst_err h
    | simp_all

/-- Witness for C10: the self-transfer failure, at a concrete input, is
`QueryReturnedNoRows`. -/
theorem c10_transfer_errors_indistinguishable_witness :
    (transfer "5" "p" "x" "x" ([] : Store)).1 = .err .queryReturnedNoRows ∧
      RusqliteError.queryReturnedNoRows = .queryReturnedNoRows :=
  ⟨by decide, c10_transfer_errors_indistinguishable "5" "p" "x" "x" [] _ (by decide)⟩

/-- C1 counterexample: on the concrete store `exStore` (account `111`, stored
pin `111111`), `deposit` with the wrong pin `999999` returns `Ok(())` — the
returned result carries no error at all (the failure is only printed), so the
claim that a wrong-pin mutating call reports an `Unauthorized` error in its
returned result is false. -/
theorem c1_wrong_pin_counterexample :
    deposit "50" "999999" "111" exStore = (.ok (), exStore) := by decide

/-- C1 (amended): a mutating call on an existing account with a wrong pin
leaves every row of the store unchanged, but only `transfer` reports the
failure in its returned result (and as `QueryReturnedNoRows`, not a typed
`Unauthorized`); `deposit`, `withdraw` and `delete_account` print a console
message and return `Ok(())`. -/
theorem c1_wrong_pin_amended (amount pin n tgt p0 : String) (s : Store)
    (o t2 : Account)
    (hpin : fetchPin s n = some p0) (hw : (p0 == pin) = false)
    (hne : (n == tgt) = false)
    (ho : fetch_account s n = some o) (ht : fetch_account s tgt = some t2)
    (how : (o.pin == pin) = false) :
    deposit amount pin n s = (.ok (), s) ∧
    withdraw amount pin n s = (.ok (), s) ∧
    delete_account n pin s = (.ok (), s) ∧
    transfer amount pin n tgt s = (.err .queryReturnedNoRows, s) := by
  refine ⟨?_, ?_, ?_, ?_⟩
  · unfold deposit; rw [hpin]; simp [hw]
  · unfold withdraw; rw [hpin]; simp [hw]
  · unfold delete_account; rw [hpin]; simp [hw]
  · unfold transfer; simp [hne, ho, ht, how]

/-- Witness for the amended C1, on `exStore` with the wrong pin `999999`. -/
theorem c1_wrong_pin_amended_witness :
    (fetchPin exStore "111" = some "111111" ∧
      (("111111" : String) == "999999") = false) ∧
    deposit "50" "999999" "111" exStore = (.ok (), exStore) ∧
    withdraw "50" "999999" "111" exStore = (.ok (), exStore) ∧
    delete_account "111" "999999" exStore = (.ok (), exStore) ∧
    transfer "50" "999999" "111" "222" exStore = (.err .queryReturnedNoRows, exStore) :=
  ⟨⟨by decide, by decide⟩,
    c1_wrong_pin_amended "50" "999999" "111" "222" "111111" exStore
      ⟨1, "111", 100, "111111"⟩ ⟨2, "222", 5, "222222"⟩
      (by decide) (by decide) (by decide) (by decide) (by decide) (by decide)⟩

/-- C5 counterexample: with the correct pin and the unparsable amount `abc`,
`withdraw` panics (`.expect` on `parse::<usize>`) instead of returning an
`InvalidAmount` error, and `deposit` reports success (`Ok(())`) because
SQLite coerces `abc` to 0 — neither returns any error to the caller. -/
theorem c5_invalid_amount_counterexample :
    withdraw "abc" "111111" "111" exStore =
      (.panicked "Not able to parse string to usize", exStore) ∧
    deposit "abc" "111111" "111" exStore = (.ok (), exStore) := by decide

/-- C5 (amended): when the amount does not parse as a non-negative integer,
`withdraw` (with the correct pin, on a readable balance) panics via
`.expect`, leaving the store unchanged; `deposit` never parses the amount at
all — SQLite coerces the unparsable text to 0, the balance is unchanged, and
the call reports success.  Neither returns an `InvalidAmount` (or any) error
for an unparsable amount. -/
theorem c5_invalid_amount_amended (amount pin n : String) (s : Store) (b : Nat)
    (hpin : fetchPin s n = some pin) (hb : fetchBalance s n = .ok b)
    (hpar : parseRustUnsigned amount = none) (hco : sqliteTextToInt amount = 0) :
    withdraw amount pin n s = (.panicked "Not able to parse string to usize", s) ∧
    deposit amount pin n s = (.ok (), s) := by
  have hself : (pin == pin) = true := by simp
  constructor
  · unfold withdraw
    rw [hpin]
    simp only [hself, if_true, hb, hpar]
  · unfold deposit
    rw [hpin]
    have hs2 : updateBalanceAdd s n (sqliteTextToInt amount) = s := by
      rw [hco]
      unfold updateBalanceAdd
      have hid : ∀ a : Account,
          (if a.account_number == n then { a with balance := a.balance + 0 } else a) = a := by
        intro a; split <;> simp
      simp [hid]
    simp only [hself, if_true, hs2, hb]

/-- A balance read after `UPDATE … balance + d` on the same key: the first
row keyed `n` now holds `b + d`. -/
theorem fetchBalance_update {s : Store} {n : String} {b : Nat} {d : Int}
    (hb : fetchBalance s n = .ok b) (hd : 0 ≤ (b : Int) + d) :
    fetchBalance (updateBalanceAdd s n d) n = .ok ((b : Int) + d).toNat := by
  rw [fetchBalance_ok_iff] at hb
  obtain ⟨a, ha, hbal⟩ := hb
  have hkey : (a.account_number == n) = true := by
    simpa using List.find?_some ha
  rw [fetchBalance_ok_iff]
  refine ⟨{ a with balance := a.balance + d }, ?_, ?_⟩
  · rw [find?_updateBalanceAdd, ha, Option.map_some', if_pos hkey]
  · simp only []
    omega

/-- C8 counterexample: a successful `deposit` on `exStore` returns the unit
value `Ok(())` — the updated balance (200) is only in the store (the code
prints it to stdout) — so the claim that `deposit`'s result success value is
the updated balance (`Result<Balance, _>`) is false: the success value is
`()`, whatever the balance. -/
theorem c8_returns_unit_counterexample :
    (deposit "100" "111111" "111" exStore).1 = .ok () ∧
    balanceOf (deposit "100" "111111" "111" exStore).2 "111" = some 200 := by decide

/-- C8 (amended): on success, `deposit` and `withdraw` return `Ok(())` —
their API shape is `Result<(), rusqlite::Error>` — and the updated balance is
only printed to the console; the store holds the updated balance but the
returned result does not carry it. -/
theorem c8_returns_unit_amended (amount amount2 pin n : String) (s : Store) (b amt : Nat)
    (hpin : fetchPin s n = some pin) (hb : fetchBalance s n = .ok b)
    (hpar : parseRustUnsigned amount = some amt) (hle : amt ≤ b)
    (hd : 0 ≤ sqliteTextToInt amount2) :
    withdraw amount pin n s = (.ok (), updateBalanceAdd s n (-(amt : Int))) ∧
    deposit amount2 pin n s = (.ok (), updateBalanceAdd s n (sqliteTextToInt amount2)) := by
  have hself : (pin == pin) = true := by simp
  have hbn : 0 ≤ (b : Int) := by omega
  constructor
  · unfold withdraw
    rw [hpin]
    simp only [hself, if_true, hb, hpar]
    rw [if_neg (by omega)]
    rw [fetchBalance_update hb (by omega)]
  · unfold deposit
    rw [hpin]
    simp only [hself, if_true]
    rw [fetchBalance_update hb (by omega)]

/-- Witness for the amended C8 on `exStore`. -/
theorem c8_returns_unit_amended_witness :
    (fetchPin exStore "111" = some "111111" ∧ fetchBalance exStore "111" = .ok 100 ∧
      parseRustUnsigned "30" = some 30 ∧ 30 ≤ 100 ∧ 0 ≤ sqliteTextToInt "40") ∧
    withdraw "30" "111111" "111" exStore =
      (.ok (), updateBalanceAdd exStore "111" (-(30 : Int))) ∧
    deposit "40" "111111" "111" exStore =
      (.ok (), updateBalanceAdd exStore "111" (sqliteTextToInt "40")) :=
  ⟨⟨by decide, by rfl, by decide, by decide, by decide⟩,
    c8_returns_unit_amended "30" "40" "111111" "111" exStore 100 30
      (by decide) (by rfl) (by decide) (by decide) (by decide)⟩

/-- C9 counterexample: `deposit` (lines 113–116) builds its lookup by
interpolating the caller-supplied account number into the SQL text.  With
the caller string `x' OR '1'='1`, the built query is
`SELECT pin FROM account where account_number='x' OR '1'='1';` — the
caller's quote characters terminate the string literal and act as query
syntax, refuting "never builds the query by interpolating a caller-supplied
string into the query text". -/
theorem c9_interpolation_counterexample :
    deposit_query_string "x' OR '1'='1" =
      "SELECT pin FROM account where account_number='x' OR '1'='1';" := by rfl

/-- C9 (amended): the lookup used on the `transfer` path, `fetch_account`,
does filter by exact account-number equality — any row it returns is a stored
row whose key equals the argument exactly — but `deposit`, `withdraw`,
`delete_account`, `show_balance` and the existence probe of `Account::new`
build their `SELECT` text by interpolating the caller-supplied account
number directly into the query string. -/
theorem c9_exact_match_amended (s : Store) (n : String) (a : Account)
    (h : fetch_account s n = some a) :
    (a ∈ s ∧ a.account_number = n) ∧
    (∀ m : String, deposit_query_string m =
      "SELECT pin FROM account where account_number='" ++ m ++ "';") ∧
    (∀ m : String, show_balance_query_string m =
      "SELECT balance FROM account where account_number='" ++ m ++ "';") :=
  ⟨⟨(fetch_account_mem h).1, (fetch_account_mem h).2.1⟩,
    fun _ => rfl, fun _ => rfl⟩

/-- Witness for the amended C9, at a concrete store and key. -/
theorem c9_exact_match_amended_witness :
    fetch_account exStore "111" = some ⟨1, "111", 100, "111111"⟩ ∧
    (⟨1, "111", 100, "111111"⟩ : Account) ∈ exStore ∧
    (⟨1, "111", 100, "111111"⟩ : Account).account_number = "111" :=
  ⟨by decide,
    (c9_exact_match_amended exStore "111" ⟨1, "111", 100, "111111"⟩ (by decide)).1.1,
    (c9_exact_match_amended exStore "111" ⟨1, "111", 100, "111111"⟩ (by decide)).1.2⟩

/-- A return of the collision loop always carries a candidate the existence
check reported as fresh. -/
theorem accountNewLoopFrom_fresh {existsChk : String → Bool}
    {candidates : Nat → String} :
    ∀ fuel i n, accountNewLoopFrom existsChk candidates i fuel = some n →
      existsChk n = false := by
  intro fuel
  induction fuel with
  | zero => intro i n h; cases h
  | succ k ih =>
    intro i n h
    unfold accountNewLoopFrom at h
    by_cases hc : existsChk (candidates i) = true
    · rw [if_pos hc] at h
      exact ih (i + 1) n h
    · rw [if_neg hc] at h
      injection h with h
      subst h
      simpa using hc

/-- C7 counterexample: the collision loop of `Account::new` (lines 26–38) has
no retry cap and no exhaustion error — it is a bare `loop`.  Against an
existence check that reports every candidate as colliding (a possible joint
behaviour of the store and the randomness source), no amount of fuel ever
makes the loop finish: the loop does not terminate, refuting the claim of a
finite retry cap whose exhaustion is reported as a fatal error. -/
theorem c7_unbounded_loop_counterexample :
    ¬ accountNewTerminates (fun _ => true) (fun _ => "111") := by
  rintro ⟨fuel, hf⟩
  have h : ∀ fuel i, accountNewLoopFrom (fun _ => true) (fun _ => "111") i fuel = none := by
    intro fuel
    induction fuel with
    | zero => intro i; rfl
    | succ k ih => intro i; simpa [accountNewLoopFrom] using ih (i + 1)
  unfold accountNewLoop at hf
  rw [h] at hf
  cases hf

/-- C7 (amended): the collision-retry loop of `Account::new` is an unbounded
`loop` with no retry cap and no exhaustion error.  It terminates exactly when
the randomness source eventually draws a candidate the store's existence
check does not report as colliding: if draw `i` is such a candidate, the loop
returns within `i + 1` iterations; with an always-colliding behaviour it
never terminates (see the counterexample). -/
theorem c7_loop_termination_amended (existsChk : String → Bool)
    (candidates : Nat → String) (i : Nat)
    (h : existsChk (candidates i) = false) :
    (accountNewLoop existsChk candidates (i + 1)).isSome = true := by
  suffices hgen : ∀ k j, existsChk (candidates (j + k)) = false →
      (accountNewLoopFrom existsChk candidates j (k + 1)).isSome = true by
    exact hgen i 0 (by simpa using h)
  intro k
  induction k with
  | zero =>
    intro j hj
    simp only [Nat.add_zero] at hj
    simp [accountNewLoopFrom, hj]
  | succ m ih =>
    intro j hj
    by_cases hc : existsChk (candidates j) = true
    · have hj2 : existsChk (candidates ((j + 1) + m)) = false := by
        have : (j + 1) + m = j + (m + 1) := by omega
        rw [this]
        exact hj
      simpa [accountNewLoopFrom, hc] using ih (j + 1) hj2
    · simp [accountNewLoopFrom, hc]

/-- Witness for the amended C7: the first draw is fresh, so fuel 1 suffices. -/
theorem c7_loop_termination_amended_witness :
    ((fun n => n == "111") "333" = false) ∧
    (accountNewLoop (fun n => n == "111") (fun _ => "333") 1).isSome = true :=
  ⟨by decide, c7_loop_termination_amended (fun n => n == "111") (fun _ => "333") 0 (by decide)⟩

/-- `deposit` never changes the `account_number` column. -/
theorem keys_deposit_snd (amount pin n : String) (s : Store) :
    keys (deposit amount pin n s).2 = keys s := by
  unfold deposit
  repeat' split
  all_goals simp [keys_updateBalanceAdd]

/-- `withdraw` never changes the `account_number` column. -/
theorem keys_withdraw_snd (amount pin n : String) (s : Store) :
    keys (withdraw amount pin n s).2 = keys s := by
  unfold withdraw
  repeat' split
  all_goals simp [keys_updateBalanceAdd]

/-- `transfer` never changes the `account_number` column. -/
theorem keys_transfer_snd (amount pin o t : String) (s : Store) :
    keys (transfer amount pin o t s).2 = keys s := by
  unfold transfer
  repeat' split
  all_goals first
    | rfl
    | (rw [transferRefetch_snd]; simp [keys_updateBalanceAdd])

/-- The store a call leaves keeps its `account_number` column. -/
theorem keys_runCall (c : LedgerCall) (s : Store) : keys (runCall c s) = keys s := by
  cases c with
  | dep a p n => exact keys_deposit_snd a p n s
  | wdr a p n => exact keys_withdraw_snd a p n s
  | xfer a p o t => exact keys_transfer_snd a p o t s

/-- Key uniqueness survives any mutating balance call. -/
theorem keysNodup_runCall (c : LedgerCall) (s : Store) (hnd : keysNodup s) :
    keysNodup (runCall c s) := by
  unfold keysNodup
  rw [keys_runCall]
  exact hnd

/-- A deposit whose amount coerces non-negatively preserves non-negative
balances. -/
theorem deposit_nonneg (amount pin n : String) (s : Store)
    (hd : 0 ≤ sqliteTextToInt amount) (h : ∀ a ∈ s, 0 ≤ a.balance) :
    ∀ r ∈ (deposit amount pin n s).2, 0 ≤ r.balance := by
  unfold deposit
  repeat' split
  all_goals first
    | exact h
    | exact nonneg_updateAdd hd h

/-- The obligation of `withdraw`'s update branch: the sufficient-funds check
against the first row keyed `n` bounds the debit of every row keyed `n`
when keys are unique. -/
theorem withdraw_update_nonneg {s : Store} {n : String} {b amt : Nat}
    (hnd : keysNodup s) (h : ∀ a ∈ s, 0 ≤ a.balance)
    (hb : fetchBalance s n = .ok b) (hle : amt ≤ b) :
    ∀ r ∈ updateBalanceAdd s n (-(amt : Int)), 0 ≤ r.balance := by
  rw [fetchBalance_ok_iff] at hb
  obtain ⟨a0, hfind, hbal⟩ := hb
  exact nonneg_updateSub hnd h (List.mem_of_find?_eq_some hfind)
    (by simpa using List.find?_some hfind) (by omega)

/-- `withdraw` preserves non-negative balances (for unique keys). -/
theorem withdraw_nonneg (amount pin n : String) (s : Store) (hnd : keysNodup s)
    (h : ∀ a ∈ s, 0 ≤ a.balance) :
    ∀ r ∈ (withdraw amount pin n s).2, 0 ≤ r.balance := by
  unfold withdraw
  repeat' split
  all_goals first
    | exact h
    | exact withdraw_update_nonneg hnd h (by assumption) (by omega)

/-- The obligation of `transfer`'s update pair: crediting the target and then
debiting the origin (bounded by the origin's fetched balance) keeps every
balance non-negative when keys are unique. -/
theorem transfer_update_nonneg {s : Store} {o t : String} {origin target : Account}
    {amt : Nat} (hnd : keysNodup s) (h : ∀ a ∈ s, 0 ≤ a.balance)
    (ho : fetch_account s o = some origin) (ht : fetch_account s t = some target)
    (hneq : origin.account_number ≠ target.account_number)
    (hle : (amt : Int) ≤ origin.balance) :
    ∀ r ∈ updateBalanceAdd (updateBalanceAdd s target.account_number (amt : Int))
        origin.account_number (-(amt : Int)), 0 ≤ r.balance := by
  obtain ⟨hom, hoK, hob⟩ := fetch_account_mem ho
  have h1 : ∀ a ∈ updateBalanceAdd s target.account_number (amt : Int), 0 ≤ a.balance :=
    nonneg_updateAdd (by positivity) h
  have hnd1 : keysNodup (updateBalanceAdd s target.account_number (amt : Int)) := by
    unfold keysNodup
    rw [keys_updateBalanceAdd]
    exact hnd
  have hmem1 : origin ∈ updateBalanceAdd s target.account_number (amt : Int) := by
    unfold updateBalanceAdd
    have hm := List.mem_map_of_mem (fun a : Account =>
      if a.account_number == target.account_number then
        { a with balance := a.balance + (amt : Int) } else a) hom
    simpa [hneq] using hm
  exact nonneg_updateSub hnd1 h1 hmem1 rfl hle

/-- `transfer` preserves non-negative balances (for unique keys). -/
theorem transfer_nonneg (amount pin o t : String) (s : Store) (hnd : keysNodup s)
    (h : ∀ a ∈ s, 0 ≤ a.balance) :
    ∀ r ∈ (transfer amount pin o t s).2, 0 ≤ r.balance := by
  unfold transfer
  repeat' split
  all_goals try exact h
  rename_i hne xO origin hfo xT target hft hpinc xP amt hparse hnlt
  rw [transferRefetch_snd]
  obtain ⟨hom, hoK, hob⟩ := fetch_account_mem hfo
  obtain ⟨htm, htK, htb⟩ := fetch_account_mem hft
  refine transfer_update_nonneg hnd h hfo hft ?_ ?_
  · rw [hoK, htK]
    simpa using hne
  · omega

/-- C4 counterexample: starting from `exStore`, where every balance is
non-negative, the single call `deposit("-500", correct pin, "111")` leaves
account `111` with balance `-400 < 0`: `deposit` never validates its amount,
the raw string reaches SQLite's `balance + ?1`, and the text coerces to the
negative delta `-500`.  (The call then returns an error only because reading
the now-negative balance back as `usize` fails — but the mutation is already
persisted.)  This refutes the claim that no sequence of deposit, withdraw
and transfer calls with any string arguments drives a balance below zero. -/
theorem c4_negative_deposit_counterexample :
    (∀ a ∈ exStore, 0 ≤ a.balance) ∧
    balanceOf (runCalls [LedgerCall.dep "-500" "111111" "111"] exStore) "111" =
      some (-400) := by decide

/-- C4 (amended): over a store with unique account numbers, no sequence of
withdraw calls, transfer calls, and deposit calls whose amount string
coerces to a non-negative integer ever leaves any balance below zero —
withdraw and transfer parse and bound their amounts, so only a deposit with a
negative amount string (unchecked by the code) can break the invariant, as
the counterexample shows. -/
theorem c4_nonneg_amended : ∀ (cs : List LedgerCall) (s : Store),
    keysNodup s → (∀ a ∈ s, 0 ≤ a.balance) → (∀ c ∈ cs, depositNonneg c) →
    ∀ a ∈ runCalls cs s, 0 ≤ a.balance := by
  intro cs
  induction cs with
  | nil => intro s _ h _; exact h
  | cons c rest ih =>
    intro s hnd h hdep
    have hstep : ∀ a ∈ runCall c s, 0 ≤ a.balance := by
      cases c with
      | dep a p n => exact deposit_nonneg a p n s (hdep _ (List.mem_cons_self _ _)) h
      | wdr a p n => exact withdraw_nonneg a p n s hnd h
      | xfer a p o t => exact transfer_nonneg a p o t s hnd h
    exact ih (runCall c s) (keysNodup_runCall c s hnd) hstep
      (fun c2 hc2 => hdep c2 (List.mem_cons_of_mem _ hc2))

/-- Witness for the amended C4: a deposit, a withdrawal and a transfer on
`exStore` leave every balance non-negative. -/
theorem c4_nonneg_amended_witness :
    (keysNodup exStore ∧ (∀ a ∈ exStore, 0 ≤ a.balance) ∧
      (∀ c ∈ [LedgerCall.dep "40" "111111" "111", LedgerCall.wdr "20" "111111" "111",
        LedgerCall.xfer "30" "111111" "111" "222"], depositNonneg c)) ∧
    ∀ a ∈ runCalls [LedgerCall.dep "40" "111111" "111",
        LedgerCall.wdr "20" "111111" "111",
        LedgerCall.xfer "30" "111111" "111" "222"] exStore, 0 ≤ a.balance :=
  ⟨⟨by decide, by decide, by decide⟩,
    c4_nonneg_amended _ exStore (by decide) (by decide) (by decide)⟩

/-- C6: account numbers stay unique.  A successful `Account::new` returns an
account whose number was reported absent by the existence probe, so inserting
it preserves key uniqueness; and `deposit`, `withdraw`, `transfer` (which
only update balances) and `delete_account` (which removes rows) all preserve
key uniqueness as well. -/
theorem c6_unique_account_numbers (candidates : Nat → String)
    (pin0 amount pin n o t np dp : String) (fuel : Nat) (s s2 : Store) (acc : Account)
    (hnd : keysNodup s)
    (hnew : Account.new candidates pin0 fuel s = some (acc, s2)) :
    (acc.account_number ∉ keys s ∧ keysNodup s2) ∧
    keysNodup (deposit amount pin n s).2 ∧
    keysNodup (withdraw amount pin n s).2 ∧
    keysNodup (transfer amount pin o t s).2 ∧
    keysNodup (delete_account np dp s).2 := by
  refine ⟨?_, ?_, ?_, ?_, ?_⟩
  · unfold Account.new at hnew
    cases hloop : accountNewLoop (account_exists s) candidates fuel with
    | none => rw [hloop] at hnew; cases hnew
    | some num =>
      rw [hloop] at hnew
      simp only [Option.map_some'] at hnew
      injection hnew with hnew
      unfold create_account at hnew
      injection hnew with h1 h2
      subst h1
      subst h2
      unfold accountNewLoop at hloop
      have hfresh : account_exists s num = false :=
        accountNewLoopFrom_fresh fuel 0 num hloop
      have hnot : num ∉ keys s := by
        intro hmem
        rw [keys, List.mem_map] at hmem
        obtain ⟨a, ha, hk⟩ := hmem
        have hany : s.any (fun a => a.account_number == num) = true :=
          List.any_eq_true.mpr ⟨a, ha, by simp [hk]⟩
        rw [account_exists, hany] at hfresh
        cases hfresh
      constructor
      · exact hnot
      · unfold keysNodup
        have hkeys : keys (s ++ [(⟨next_max_id s, num, ((0 : Nat) : Int), pin0⟩ : Account)]) =
            keys s ++ [num] := by
          simp [keys]
        rw [hkeys]
        have hnd2 : (keys s).Nodup := hnd
        simp [List.nodup_append, hnd2, hnot]
  · unfold keysNodup; rw [keys_deposit_snd]; exact hnd
  · unfold keysNodup; rw [keys_withdraw_snd]; exact hnd
  · unfold keysNodup; rw [keys_transfer_snd]; exact hnd
  · unfold delete_account
    repeat' split
    all_goals first
      | exact hnd
      | (show keysNodup (List.filter (fun a => a.account_number != np) s)
         unfold keysNodup keys
         exact List.Nodup.sublist ((List.filter_sublist s).map (·.account_number)) hnd)

/-- Witness for C6 on `exStore`: the fresh candidate `333` is inserted and
all operations keep the account numbers unique. -/
theorem c6_unique_account_numbers_witness :
    (keysNodup exStore ∧
      Account.new (fun _ => "333") "123456" 1 exStore =
        some (⟨3, "333", 0, "123456"⟩,
          [⟨1, "111", 100, "111111"⟩, ⟨2, "222", 5, "222222"⟩,
           ⟨3, "333", 0, "123456"⟩])) ∧
    ((("333" : String) ∉ keys exStore ∧
      keysNodup [(⟨1, "111", 100, "111111"⟩ : Account), ⟨2, "222", 5, "222222"⟩,
        ⟨3, "333", 0, "123456"⟩]) ∧
    keysNodup (deposit "10" "111111" "111" exStore).2 ∧
    keysNodup (withdraw "10" "111111" "111" exStore).2 ∧
    keysNodup (transfer "10" "111111" "111" "222" exStore).2 ∧
    keysNodup (delete_account "222" "222222" exStore).2) :=
  ⟨⟨by decide, by decide⟩,
    c6_unique_account_numbers (fun _ => "333") "123456" "10" "111111" "111" "111" "222"
      "222" "222222" 1 exStore
      [⟨1, "111", 100, "111111"⟩, ⟨2, "222", 5, "222222"⟩, ⟨3, "333", 0, "123456"⟩]
      ⟨3, "333", 0, "123456"⟩ (by decide) (by decide)⟩

/-- A row keyed by the updated key stays in the store with its balance
shifted. -/
theorem mem_updateBalanceAdd_self {s : Store} {a : Account} (ha : a ∈ s)
    (k : String) (d : Int) (hk : (a.account_number == k) = true) :
    ({ a with balance := a.balance + d } : Account) ∈ updateBalanceAdd s k d := by
  unfold updateBalanceAdd
  exact List.mem_map.mpr ⟨a, ha, by rw [if_pos hk]⟩

/-- A row keyed differently from the updated key stays in the store
unchanged. -/
theorem mem_updateBalanceAdd_other {s : Store} {a : Account} (ha : a ∈ s)
    (k : String) (d : Int) (hk : (a.account_number == k) = false) :
    a ∈ updateBalanceAdd s k d := by
  unfold updateBalanceAdd
  exact List.mem_map.mpr ⟨a, ha, by rw [if_neg (by simp [hk])]⟩

/-- Updating balances does not change how many rows a key matches. -/
theorem countP_updateBalanceAdd (s : Store) (k k2 : String) (d : Int) :
    (updateBalanceAdd s k2 d).countP (fun a => a.account_number == k) =
      s.countP (fun a => a.account_number == k) := by
  unfold updateBalanceAdd
  rw [List.countP_map]
  have hpf : ((fun a : Account => a.account_number == k) ∘ fun a : Account =>
      if a.account_number == k2 then { a with balance := a.balance + d } else a) =
      (fun a : Account => a.account_number == k) := by
    funext a
    simp only [Function.comp]
    rw [updateBalanceAdd_key]
  rw [hpf]

/-- Reduction of `transfer` to its two updates and the re-fetch, under the
checks all passing. -/
theorem transfer_success (amount pin oN tN : String) (s : Store)
    (origin target : Account) (amt : Nat)
    (hne : (oN == tN) = false)
    (ho : fetch_account s oN = some origin) (ht : fetch_account s tN = some target)
    (hpin : (origin.pin == pin) = true)
    (hamt : parseRustUnsigned amount = some amt)
    (hnlt : ¬ origin.balance.toNat < amt) :
    transfer amount pin oN tN s =
      transferRefetch
        (updateBalanceAdd (updateBalanceAdd s target.account_number (amt : Int))
          origin.account_number (-(amt : Int)))
        origin.account_number target.account_number := by
  unfold transfer
  simp only [hne, Bool.false_eq_true, if_false, ho, ht, hpin, if_true, hamt]
  rw [if_neg hnlt]

/-- After crediting the target and debiting the origin, both re-fetches
succeed (unique keys): the origin row holds its old balance minus the amount,
the target row its old balance plus the amount. -/
theorem transferRefetch_after_updates {s : Store} {origin target : Account} {amt : Nat}
    (hnd : keysNodup s)
    (hom : origin ∈ s) (htm : target ∈ s) (htb : 0 ≤ target.balance)
    (hneq : origin.account_number ≠ target.account_number)
    (hle : (amt : Int) ≤ origin.balance) :
    transferRefetch
        (updateBalanceAdd (updateBalanceAdd s target.account_number (amt : Int))
          origin.account_number (-(amt : Int)))
        origin.account_number target.account_number =
      (.ok ({ origin with balance := origin.balance + -(amt : Int) },
            { target with balance := target.balance + (amt : Int) }),
       updateBalanceAdd (updateBalanceAdd s target.account_number (amt : Int))
         origin.account_number (-(amt : Int))) := by
  have hnd1 : keysNodup (updateBalanceAdd s target.account_number (amt : Int)) := by
    unfold keysNodup
    rw [keys_updateBalanceAdd]
    exact hnd
  have hnd2 : keysNodup (updateBalanceAdd (updateBalanceAdd s target.account_number (amt : Int))
      origin.account_number (-(amt : Int))) := by
    unfold keysNodup
    rw [keys_updateBalanceAdd, keys_updateBalanceAdd]
    exact hnd
  have h1o : origin ∈ updateBalanceAdd s target.account_number (amt : Int) :=
    mem_updateBalanceAdd_other hom _ _ (by simp [hneq])
  have h2o : ({ origin with balance := origin.balance + -(amt : Int) } : Account) ∈
      updateBalanceAdd (updateBalanceAdd s target.account_number (amt : Int))
        origin.account_number (-(amt : Int)) :=
    mem_updateBalanceAdd_self h1o _ _ (by simp)
  have h1t : ({ target with balance := target.balance + (amt : Int) } : Account) ∈
      updateBalanceAdd s target.account_number (amt : Int) :=
    mem_updateBalanceAdd_self htm _ _ (by simp)
  have h2t : ({ target with balance := target.balance + (amt : Int) } : Account) ∈
      updateBalanceAdd (updateBalanceAdd s target.account_number (amt : Int))
        origin.account_number (-(amt : Int)) :=
    mem_updateBalanceAdd_other h1t _ _ (by simp [Ne.symm hneq])
  have hfo : fetch_account
      (updateBalanceAdd (updateBalanceAdd s target.account_number (amt : Int))
        origin.account_number (-(amt : Int))) origin.account_number =
      some { origin with balance := origin.balance + -(amt : Int) } :=
    fetch_account_of_mem hnd2 h2o rfl (by show 0 ≤ origin.balance + -(amt : Int); omega)
  have hft : fetch_account
      (updateBalanceAdd (updateBalanceAdd s target.account_number (amt : Int))
        origin.account_number (-(amt : Int))) target.account_number =
      some { target with balance := target.balance + (amt : Int) } :=
    fetch_account_of_mem hnd2 h2t rfl (by show 0 ≤ target.balance + (amt : Int); omega)
  exact transferRefetch_ok hfo hft

/-- C3: a transfer of a parseable amount between two distinct existing
accounts, with the origin's pin and sufficient origin funds, succeeds
(returning both refreshed accounts), debits the origin by exactly the
amount, credits the target by exactly the amount, and conserves the sum of
balances over all rows of the store. -/
theorem c3_transfer_conservation (amount pin oN tN : String) (s : Store)
    (origin target : Account) (amt : Nat)
    (hnd : keysNodup s) (hne : (oN == tN) = false)
    (ho : fetch_account s oN = some origin) (ht : fetch_account s tN = some target)
    (hpin : (origin.pin == pin) = true)
    (hamt : parseRustUnsigned amount = some amt)
    (hle : (amt : Int) ≤ origin.balance) :
    (transfer amount pin oN tN s).1 =
      .ok ({ origin with balance := origin.balance + -(amt : Int) },
           { target with balance := target.balance + (amt : Int) }) ∧
    balanceOf (transfer amount pin oN tN s).2 oN = some (origin.balance - (amt : Int)) ∧
    balanceOf (transfer amount pin oN tN s).2 tN = some (target.balance + (amt : Int)) ∧
    totalBalance (transfer amount pin oN tN s).2 = totalBalance s := by
  obtain ⟨hom, hoK, hob⟩ := fetch_account_mem ho
  obtain ⟨htm, htK, htb⟩ := fetch_account_mem ht
  subst hoK
  subst htK
  have hneq : origin.account_number ≠ target.account_number := by simpa using hne
  have hnlt : ¬ origin.balance.toNat < amt := by omega
  have htr := transfer_success amount pin _ _ s origin target amt hne ho ht hpin hamt hnlt
  have hrf := transferRefetch_after_updates hnd hom htm htb hneq hle
  rw [htr, hrf]
  refine ⟨rfl, ?_, ?_, ?_⟩
  · unfold balanceOf
    rw [find?_updateBalanceAdd, find?_updateBalanceAdd, find?_key_eq hnd hom rfl]
    simp [hneq, sub_eq_add_neg]
  · unfold balanceOf
    rw [find?_updateBalanceAdd, find?_updateBalanceAdd, find?_key_eq hnd htm rfl]
    simp [Ne.symm hneq]
  · rw [totalBalance_updateBalanceAdd, countP_updateBalanceAdd,
      totalBalance_updateBalanceAdd,
      countP_key_eq_one hnd hom rfl, countP_key_eq_one hnd htm rfl]
    push_cast
    ring

/-- Witness for C3: transferring 30 from account `111` (balance 100) to
account `222` (balance 5) on `exStore`. -/
theorem c3_transfer_conservation_witness :
    (keysNodup exStore ∧ (("111" : String) == "222") = false ∧
      fetch_account exStore "111" = some ⟨1, "111", 100, "111111"⟩ ∧
      fetch_account exStore "222" = some ⟨2, "222", 5, "222222"⟩ ∧
      parseRustUnsigned "30" = some 30) ∧
    (transfer "30" "111111" "111" "222" exStore).1 =
      .ok (⟨1, "111", 70, "111111"⟩, ⟨2, "222", 35, "222222"⟩) ∧
    balanceOf (transfer "30" "111111" "111" "222" exStore).2 "111" = some 70 ∧
    balanceOf (transfer "30" "111111" "111" "222" exStore).2 "222" = some 35 ∧
    totalBalance (transfer "30" "111111" "111" "222" exStore).2 = totalBalance exStore :=
  ⟨⟨by decide, by decide, by decide, by decide, by decide⟩,
    c3_transfer_conservation "30" "111111" "111" "222" exStore
      ⟨1, "111", 100, "111111"⟩ ⟨2, "222", 5, "222222"⟩ 30
      (by decide) (by decide) (by decide) (by decide) (by decide) (by decide) (by decide)⟩

/-- Case analysis of `transfer` over a store with unique keys: either some
check failed — the result is `QueryReturnedNoRows` and the store is exactly
the input store — or every check passed and the returned store is exactly
the two-update store of the write sequence, with an `Ok` result. -/
theorem transfer_cases (amount pin oN tN : String) (s : Store) (hnd : keysNodup s) :
    ((transfer amount pin oN tN s).2 = s ∧
      (transfer amount pin oN tN s).1 = .err .queryReturnedNoRows) ∨
    (∃ amt, parseRustUnsigned amount = some amt ∧
      (∃ r, (transfer amount pin oN tN s).1 = .ok r) ∧
      (transfer amount pin oN tN s).2 = applyWrites (transferWrites oN tN amt) s) := by
  unfold transfer
  repeat' split
  all_goals try exact Or.inl ⟨rfl, rfl⟩
  rename_i hne xO origin hfo xT target hft hpinc xP amt hparse hnlt
  obtain ⟨hom, hoK, hob⟩ := fetch_account_mem hfo
  obtain ⟨htm, htK, htb⟩ := fetch_account_mem hft
  have hneq : origin.account_number ≠ target.account_number := by
    rw [hoK, htK]
    simpa using hne
  have hrf := @transferRefetch_after_updates s origin target amt hnd hom htm htb hneq
    (by omega)
  rw [hrf]
  refine Or.inr ⟨amt, hparse, ⟨_, rfl⟩, ?_⟩
  rw [hoK, htK]
  simp [applyWrites, transferWrites]

/-- C2 counterexample: the two legs of `transfer`'s success path are two
separate `UPDATE` statements with no enclosing transaction (lines 169–178),
issued credit-first.  An execution interrupted after the first write of the
write sequence for a transfer of 40 from `111` to `222` on `exStore` has
already credited the target (45) while the origin still holds 100 — exactly
one of the two legs applied — refuting "no execution can leave exactly one
of the two legs applied".  (The full write sequence is exactly what a
completed `transfer` leaves behind, third conjunct.) -/
theorem c2_atomicity_counterexample :
    balanceOf (applyWrites ((transferWrites "111" "222" 40).take 1) exStore) "222" =
      some 45 ∧
    balanceOf (applyWrites ((transferWrites "111" "222" 40).take 1) exStore) "111" =
      some 100 ∧
    applyWrites (transferWrites "111" "222" 40) exStore =
      (transfer "40" "111111" "111" "222" exStore).2 := by decide

/-- C2 (amended): over a store with unique account numbers, whenever
`transfer` returns an error no row has changed (every check precedes the
writes), and a completed successful transfer has applied both legs of its
write sequence; but the two legs are two separate non-transactional `UPDATE`
statements, issued credit-first, so an execution interrupted between them
has applied exactly one leg (see the counterexample). -/
theorem c2_transfer_writes_amended (amount pin oN tN : String) (s : Store)
    (hnd : keysNodup s) :
    (∀ e, (transfer amount pin oN tN s).1 = .err e →
      (transfer amount pin oN tN s).2 = s) ∧
    (∀ r, (transfer amount pin oN tN s).1 = .ok r →
      ∃ amt, parseRustUnsigned amount = some amt ∧
        (transfer amount pin oN tN s).2 = applyWrites (transferWrites oN tN amt) s) := by
  rcases transfer_cases amount pin oN tN s hnd with
    ⟨hsnd, hfst⟩ | ⟨amt, hp, ⟨r0, hfst⟩, hsnd⟩
  · refine ⟨fun e _ => hsnd, fun r hr => ?_⟩
    rw [hfst] at hr
    cases hr
  · refine ⟨fun e he => ?_, fun r _ => ⟨amt, hp, hsnd⟩⟩
    rw [hfst] at he
    cases he

/-- Witness for the amended C2, on `exStore`. -/
theorem c2_transfer_writes_amended_witness :
    keysNodup exStore ∧
    ((∀ e, (transfer "40" "111111" "111" "222" exStore).1 = .err e →
      (transfer "40" "111111" "111" "222" exStore).2 = exStore) ∧
    (∀ r, (transfer "40" "111111" "111" "222" exStore).1 = .ok r →
      ∃ amt, parseRustUnsigned "40" = some amt ∧
        (transfer "40" "111111" "111" "222" exStore).2 =
          applyWrites (transferWrites "111" "222" amt) exStore)) :=
  ⟨by decide, c2_transfer_writes_amended "40" "111111" "111" "222" exStore (by decide)⟩

/-- Witness for the amended C5: the unparsable amount `abc` on `exStore`. -/
theorem c5_invalid_amount_amended_witness :
    (fetchPin exStore "111" = some "111111" ∧ fetchBalance exStore "111" = .ok 100 ∧
      parseRustUnsigned "abc" = none ∧ sqliteTextToInt "abc" = 0) ∧
    withdraw "abc" "111111" "111" exStore =
      (.panicked "Not able to parse string to usize", exStore) ∧
    deposit "abc" "111111" "111" exStore = (.ok (), exStore) :=
  ⟨⟨by decide, by rfl, by decide, by decide⟩,
    c5_invalid_amount_amended "abc" "111111" "111" exStore 100
      (by decide) (by rfl) (by decide) (by decide)⟩
